import Mathlib

/-!
Verification development for the `secrets` library: a password-protected,
disk-resident secret store.  The Go sources are shallowly embedded below:
bytes are lists of naturals, Go paths are lists of characters with
`filepath.Clean` / `filepath.Join` / `filepath.Dir` translated from Go's
lexical path-cleaning rules, the filesystem is an explicit state value,
and the AES-256-GCM and Argon2id library primitives (which are external
to the repository) are modelled by executable functions that keep the
properties the store relies on: seal/open round-trip, authentication
failure on mismatched key material, fixed nonce size, and fixed derived
key length.  Randomness (key and nonce generation) is passed in as
explicit arguments.  Advisory file locks serialize access between
processes; the embedding is single-process, so lock acquisition succeeds
exactly when the underlying open of the lock path succeeds (it fails on
a directory for read-write opens).
-/

deriving instance DecidableEq for Except

namespace SecretsStore

/-- Byte sequences; each element is a byte value. -/
abbrev Bytes := List Nat

/-- A Go byte slice: `none` models a nil slice, `some l` a non-nil slice
holding `l` (so `some []` is the empty but non-nil slice). -/
abbrev GoBytes := Option Bytes

/-- A Go path string, as its list of characters. -/
abbrev GoStr := List Char

/-- Characters of a string literal, for writing path constants. -/
def str (s : String) : GoStr := s.data

/-- Boolean test that `pre` is a prefix of `s` (strings.HasPrefix s pre). -/
def isPre : GoStr → GoStr → Bool
  | [], _ => true
  | _ :: _, [] => false
  | a :: as', b :: bs => if a = b then isPre as' bs else false

/-- strings.HasPrefix(s, pre). -/
def goHasPre (s pre : GoStr) : Bool := isPre pre s

/-- Split a path on the slash character, as Go's strings.Split does:
the empty string yields one empty field, and n slashes yield n+1 fields. -/
def splitSlash : GoStr → List GoStr
  | [] => [[]]
  | c :: rest =>
    let r := splitSlash rest
    if c = '/' then [] :: r
    else
      match r with
      | [] => [[c]]
      | g :: gs => (c :: g) :: gs

/-- The element-processing loop of Go's filepath.Clean: drop empty and
dot elements; a dotdot element pops the previous real element, is dropped
at the top of a rooted path, and is kept at the top of a relative path.
`acc` holds the output elements in reverse. -/
def cleanParts (rooted : Bool) : List GoStr → List GoStr → List GoStr
  | [], acc => acc.reverse
  | p :: rest, acc =>
    if p = [] ∨ p = ['.'] then cleanParts rooted rest acc
    else if p = ['.', '.'] then
      match acc with
      | [] => if rooted then cleanParts rooted rest [] else cleanParts rooted rest [['.', '.']]
      | a :: as' =>
        if a = ['.', '.'] then cleanParts rooted rest (['.', '.'] :: a :: as')
        else cleanParts rooted rest as'
    else cleanParts rooted rest (p :: acc)

/-- Go's filepath.Clean for slash-separated paths. -/
def goClean (p : GoStr) : GoStr :=
  if p = [] then ['.']
  else
    let rooted := goHasPre p ['/']
    let parts := cleanParts rooted (splitSlash p) []
    let joined := List.intercalate ['/'] parts
    if rooted then '/' :: joined
    else if joined = [] then ['.'] else joined

/-- Go's filepath.Join on two elements: empty elements are dropped and
the concatenation is cleaned. -/
def goJoin (a b : GoStr) : GoStr :=
  if a = [] then (if b = [] then [] else goClean b)
  else goClean (a ++ '/' :: b)

/-- Go's filepath.Dir: everything up to the final slash, cleaned;
a path without a slash has directory dot. -/
def goDir (p : GoStr) : GoStr :=
  let parts := splitSlash p
  if parts.length ≤ 1 then ['.']
  else goClean (List.intercalate ['/'] parts.dropLast ++ ['/'])

/-- Errors surfaced by the modelled OS calls; `notExist` is the class
recognized by os.IsNotExist. -/
inductive OsErr
  | notExist
  | isDirE
  | otherE
deriving DecidableEq

/-- First match in an association list of files, by full path. -/
def findFile : List (GoStr × Bytes) → GoStr → Option Bytes
  | [], _ => none
  | (q, b) :: rest, p => if q = p then some b else findFile rest p

/-- Membership of a path in a list of directory paths. -/
def memPath : List GoStr → GoStr → Bool
  | [], _ => false
  | q :: rest, p => if q = p then true else memPath rest p

/-- The on-disk state: regular files with their contents, and the set of
directories, both keyed by full (cleaned) path. -/
structure FS where
  files : List (GoStr × Bytes)
  dirs : List GoStr
deriving DecidableEq

/-- Contents of the regular file at `p`, if one exists. -/
def FS.lookupFile (fs : FS) (p : GoStr) : Option Bytes := findFile fs.files p

/-- Whether `p` is a directory. -/
def FS.isDir (fs : FS) (p : GoStr) : Bool := memPath fs.dirs p

/-- os.Stat: `some true` for a directory, `some false` for a regular
file, `none` for a path that does not exist. -/
def FS.statEx (fs : FS) (p : GoStr) : Option Bool :=
  if fs.isDir p then some true
  else if (fs.lookupFile p).isSome then some false
  else none

/-- os.Remove of a regular file (no-op when absent). -/
def FS.removeFile (fs : FS) (p : GoStr) : FS :=
  { fs with files := fs.files.filter (fun e => if e.1 = p then false else true) }

/-- Store.readFile (see the LockedIO helper): a shared lock requires the
file to exist and to be openable read-only, then the whole file is read.
Reading a directory fails with a non-notExist error. -/
def FS.readFile (fs : FS) (p : GoStr) : Except OsErr Bytes :=
  if fs.isDir p then .error .isDirE
  else
    match fs.lookupFile p with
    | none => .error .notExist
    | some b => .ok b

/-- Store.writeFile: an exclusive lock creates the file if needed and
the contents are replaced; writing over a directory fails. -/
def FS.writeFile (fs : FS) (p : GoStr) (b : Bytes) : Except OsErr FS :=
  if fs.isDir p then .error .isDirE
  else .ok { fs with files := (p, b) :: fs.files.filter (fun e => if e.1 = p then false else true) }

/-- os.MkdirAll: fails when a regular file occupies the path. -/
def FS.mkdirAll (fs : FS) (d : GoStr) : Except OsErr FS :=
  if (fs.lookupFile d).isSome then .error .otherE
  else .ok { fs with dirs := d :: fs.dirs }

/-- Path relocation under a directory rename. -/
def pathRen (oldp newp p : GoStr) : GoStr :=
  if p = oldp then newp
  else if isPre (oldp ++ ['/']) p then newp ++ ['/'] ++ p.drop (oldp.length + 1)
  else p

/-- os.Rename of a file or directory tree. -/
def FS.rename (fs : FS) (oldp newp : GoStr) : Except OsErr FS :=
  if fs.isDir oldp || (fs.lookupFile oldp).isSome then
    .ok { files := fs.files.map (fun e => (pathRen oldp newp e.1, e.2)),
          dirs := fs.dirs.map (pathRen oldp newp) }
  else .error .notExist

/-- Whether anything exists strictly under directory `d`. -/
def FS.dirNonEmpty (fs : FS) (d : GoStr) : Bool :=
  fs.files.any (fun e => goHasPre e.1 (d ++ ['/'])) ||
    fs.dirs.any (fun p => goHasPre p (d ++ ['/']))

/-- GCM nonce size used by cipher.NewGCM over AES (12 bytes). -/
def gcmNonceSize : Nat := 12

/-- Authentication tag of the modelled AEAD; depends on key, nonce and
plaintext, so tampering or a wrong key is detected. -/
def gcmTag (key nonce pt : Bytes) : Nat :=
  (key.foldl (fun a b => a + b) 0 * 3 + nonce.foldl (fun a b => a + b) 0 * 5 +
    pt.foldl (fun a b => a + b) 0 * 7 + pt.length) % 256

/-- Modelled gcm.Seal: the ciphertext carries the plaintext followed by
the authentication tag. -/
def gcmSeal (key nonce pt : Bytes) : Bytes := pt ++ [gcmTag key nonce pt]

/-- Modelled gcm.Open: checks the tag and recovers the plaintext;
`none` is an authentication failure. -/
def gcmOpen (key nonce ct : Bytes) : Option Bytes :=
  if ct.length = 0 then none
  else
    let pt := ct.dropLast
    if ct.getLast? = some (gcmTag key nonce pt) then some pt else none

/-- aes.NewCipher succeeds exactly on AES key lengths. -/
def aesKeyLenOk (k : Bytes) : Bool :=
  if k.length = 16 then true else if k.length = 24 then true else if k.length = 32 then true else false

/-- Modelled argon2.IDKey: a deterministic function of password, salt and
the parameters, producing exactly `keyLen` bytes. -/
def argon2IDKey (password salt : Bytes) (time memory threads keyLen : Nat) : Bytes :=
  (List.range keyLen).map (fun i =>
    (password.foldl (fun a b => a + b) 0 * 3 + salt.foldl (fun a b => a + b) 0 * 5 +
      time * 7 + memory * 11 + threads * 13 + i) % 256)

/-- Argon2id iteration count (src/unnamed/part_010). -/
def Argon2Time : Nat := 3

/-- Argon2id memory usage, in KiB: 64 MiB (src/unnamed/part_010). -/
def Argon2Memory : Nat := 64 * 1024

/-- Argon2id parallelism (src/unnamed/part_010). -/
def Argon2Threads : Nat := 4

/-- Argon2id output key length (src/unnamed/part_010). -/
def Argon2KeyLen : Nat := 32

/-- deriveKeyFromPassword (src/unnamed/part_010): rejects salts shorter
than 32 bytes, otherwise derives a key with Argon2id. -/
def deriveKeyFromPassword (password salt : Bytes) : Except String Bytes :=
  if salt.length < 32 then .error "salt must be at least 32 bytes"
  else .ok (argon2IDKey password salt Argon2Time Argon2Memory Argon2Threads Argon2KeyLen)

/-- The in-memory store state (src/unnamed/part_011).  `currentKeyIndex`
is a uint8 value; arithmetic on it is taken mod 256 where the Go code
relies on wraparound. -/
structure Store where
  dir : GoStr
  keyDir : GoStr
  saltFile : GoStr
  curKeyIdxFile : GoStr
  lockFile : GoStr
  primaryKey : Bytes
  currentKey : Bytes
  currentKeyIndex : Nat
deriving DecidableEq

/-- Name of the keys directory. -/
def keyDirName : GoStr := str ".secretskeys"

/-- Name of the sibling directory left by an interrupted password change. -/
def oldPwDirName : GoStr := str ".secretskeys.oldpw"

/-- File name keyN for key index N (fmt.Sprintf key%d). -/
def keyFileName (idx : Nat) : GoStr := str "key" ++ Nat.toDigits 10 idx

/-- loadKey (src/store.go): read .keys/keyN, check the algorithm byte is
0, check the framing, open the envelope under the primary key. -/
def loadKey (s : Store) (fs : FS) (index : Nat) : Except String Bytes :=
  let keyPath := goJoin s.keyDir (keyFileName index)
  match fs.readFile keyPath with
  | .error _ => .error "failed to read key file"
  | .ok data =>
    if data.length < 1 then .error "invalid key file format"
    else if data.headD 0 ≠ 0 then .error ("unsupported algorithm: " ++ toString (data.headD 0))
    else if aesKeyLenOk (s.primaryKey.take 32) = false then .error "failed to create cipher"
    else if data.length < 1 + gcmNonceSize then .error "invalid key file format"
    else
      match gcmOpen (s.primaryKey.take 32) ((data.drop 1).take gcmNonceSize)
          (data.drop (1 + gcmNonceSize)) with
      | none => .error "failed to decrypt key"
      | some key => .ok key

/-- encryptData (src/data.go): seal under the current key with a fresh
12-byte nonce (passed in as the RNG output) and frame as
index byte, nonce, ciphertext. -/
def encryptData (s : Store) (nonce : Bytes) (data : Bytes) : Except String Bytes :=
  if aesKeyLenOk s.currentKey = false then .error "failed to create cipher"
  else .ok (s.currentKeyIndex :: nonce ++ gcmSeal s.currentKey nonce data)

/-- decryptData (src/data.go): resolve the key named by the first byte
(the in-memory current key, or an older key loaded from disk), check the
framing, open GCM; Go's gcm.Open returns a nil slice for an empty
plaintext and the code replaces nil by an empty non-nil slice. -/
def decryptData (s : Store) (fs : FS) (encryptedData : Bytes) : Except String GoBytes :=
  if encryptedData.length < 1 then .error "invalid encrypted data format"
  else
    let keyIndex := encryptedData.headD 0
    let keyRes : Except String Bytes :=
      if keyIndex = s.currentKeyIndex then .ok s.currentKey
      else
        match loadKey s fs keyIndex with
        | .error e => .error ("failed to load key: " ++ e)
        | .ok k => .ok k
    match keyRes with
    | .error e => .error e
    | .ok key =>
      if aesKeyLenOk key = false then .error "failed to create cipher"
      else if encryptedData.length < 1 + gcmNonceSize then .error "invalid encrypted data format"
      else
        match gcmOpen key ((encryptedData.drop 1).take gcmNonceSize)
            (encryptedData.drop (1 + gcmNonceSize)) with
        | none => .error "failed to decrypt"
        | some pt =>
          let dataSlice : GoBytes := if pt.isEmpty then none else some pt
          match dataSlice with
          | none => .ok (some [])
          | some l => .ok (some l)

/-- Save (src/data.go): nil-receiver check, path validation against the
root, parent-directory creation, directory-collision check, encryption,
locked write.  The 12 random nonce bytes are the `nonce` argument. -/
def Save (s? : Option Store) (fs : FS) (nonce : Bytes) (path : GoStr) (data : Bytes) :
    Except String FS :=
  match s? with
  | none => .error "no store"
  | some s =>
    if path = [] then .error "path must not be empty"
    else
      let fullPath := goJoin s.dir path
      if goHasPre fullPath (s.dir ++ ['/']) = false then .error "path outside store hierarchy"
      else
        match fs.mkdirAll (goDir fullPath) with
        | .error _ => .error "failed to create directory"
        | .ok fs1 =>
          match fs1.statEx fullPath with
          | some true => .error "secret is a directory"
          | _ =>
            match encryptData s nonce data with
            | .error _ => .error "failed to encrypt data"
            | .ok encryptedData =>
              match fs1.writeFile fullPath encryptedData with
              | .error _ => .error "failed to write file"
              | .ok fs2 => .ok fs2

/-- Load (src/data.go): nil-receiver check, path validation, locked read
(a missing file is reported as secret not found), decryption. -/
def Load (s? : Option Store) (fs : FS) (path : GoStr) : Except String GoBytes :=
  match s? with
  | none => .error "no store"
  | some s =>
    if path = [] then .error "path must not be empty"
    else
      let fullPath := goJoin s.dir path
      if goHasPre fullPath (s.dir ++ ['/']) = false then .error "path outside store hierarchy"
      else
        match fs.readFile fullPath with
        | .error e => if e = .notExist then .error "secret not found" else .error "failed to read file"
        | .ok encryptedData =>
          match decryptData s fs encryptedData with
          | .error _ => .error "failed to decrypt data"
          | .ok data => .ok data

/-- Delete (src/data.go): nil-receiver check, then the cleaned join is
required to have the root as a plain string prefix (without a trailing
slash); a missing file is success; otherwise lock (which fails on a
directory) and unlink. -/
def Delete (s? : Option Store) (fs : FS) (path : GoStr) : Except String FS :=
  match s? with
  | none => .error "no store"
  | some s =>
    let fullPath := goClean (goJoin s.dir path)
    if goHasPre fullPath s.dir = false then .error "path outside store hierarchy"
    else
      match fs.statEx fullPath with
      | none => .ok fs
      | some isDirectory =>
        if isDirectory then .error "failed to open lock file"
        else .ok (fs.removeFile fullPath)

/-- getKeyIndex (src/data.go): the first byte of an encrypted data file. -/
def getKeyIndex (s : Store) (fs : FS) (file : GoStr) : Except String Nat :=
  match fs.readFile file with
  | .error e => if e = .notExist then .error "secret not found" else .error "failed to read file"
  | .ok encryptedData =>
    if encryptedData.length < 1 then .error "corrupt file"
    else .ok (encryptedData.headD 0)

/-- newKey (src/store.go): generate a 32-byte key (the `key` argument is
the RNG output), seal it under the primary key with a fresh nonce, and
write algorithm byte 0, nonce, envelope to .keys/keyN. -/
def newKeyFn (s : Store) (fs : FS) (index : Nat) (key nonce : Bytes) :
    Except String (Bytes × FS) :=
  let keyPath := goJoin s.keyDir (keyFileName index)
  if aesKeyLenOk (s.primaryKey.take 32) = false then .error "failed to create cipher"
  else
    match fs.writeFile keyPath (0 :: nonce ++ gcmSeal (s.primaryKey.take 32) nonce key) with
    | .error _ => .error "failed to write key file"
    | .ok fs1 => .ok (key, fs1)

/-- saveCurrentKeyIndex (src/store.go): write the single current-index
byte to the currentkey file. -/
def saveCurrentKeyIndex (s : Store) (fs : FS) : Except OsErr FS :=
  fs.writeFile s.curKeyIdxFile [s.currentKeyIndex]

/-- Rotate (src/rotation.go): under the store lock, compute the next
index with uint8 wraparound, refuse if its key file already exists,
generate and write the new key, update the in-memory current key and
index, and persist the index byte.  The mutated store and filesystem are
returned alongside the error status, because the Go method mutates its
receiver and the disk before some of its error returns.  The asynchronous
sweep it spawns is modelled separately by `updateFilesF`. -/
def Rotate (s : Store) (fs : FS) (rngKey rngNonce : Bytes) :
    Except String Unit × Store × FS :=
  let newKeyIndex := (s.currentKeyIndex + 1) % 256
  let newKeyFilePath := goJoin s.keyDir (keyFileName newKeyIndex)
  if (fs.statEx newKeyFilePath).isSome then (.error "too many existing keys", s, fs)
  else
    match newKeyFn s fs newKeyIndex rngKey rngNonce with
    | .error _ => (.error "failed to save new key", s, fs)
    | .ok (newKey, fs1) =>
      let s1 := { s with currentKey := newKey, currentKeyIndex := newKeyIndex }
      match saveCurrentKeyIndex s1 fs1 with
      | .error _ => (.error "failed to save key index file", s1, fs1)
      | .ok fs2 => (.ok (), s1, fs2)

/-- checkNewStore (src/unnamed/part_011): decide between creating a new
store and attaching to an existing one; when the keys directory is
missing but the .oldpw sibling left by an interrupted Passwd exists, the
sibling is renamed back into place and the store is treated as existing. -/
def checkNewStore (s : Store) (fs : FS) : Except String (Bool × FS) :=
  match fs.statEx s.dir with
  | none => .ok (true, fs)
  | some false => .error "store path is not a directory"
  | some true =>
    match fs.statEx s.keyDir with
    | none =>
      let oldDir := goJoin s.dir oldPwDirName
      match fs.statEx oldDir with
      | some isDirectory =>
        if isDirectory = false then .error "old key dir is not a directory"
        else
          match fs.rename oldDir s.keyDir with
          | .error _ => .error "could not restore keys directory"
          | .ok fs1 => .ok (false, fs1)
      | none =>
        if fs.dirNonEmpty s.dir then .error "store directory is not empty"
        else .ok (true, fs)
    | some false => .error "keys path is not a directory"
    | some true =>
      match fs.statEx s.saltFile with
      | none => .error "not a valid store, no salt file"
      | some _ =>
        match fs.readFile s.curKeyIdxFile with
        | .error _ => .error "not a valid store, no key index"
        | .ok data =>
          if data.length ≠ 1 then .error "not a valid store, no key index"
          else
            match fs.statEx (goJoin s.keyDir (keyFileName (data.headD 0))) with
            | none => .error "not a valid store, no key file"
            | some _ => .ok (false, fs)

/-- listDataFiles (src/rotation.go): walk the store tree collecting full
paths of regular files, skipping the keys directory subtree. -/
def listDataFiles (s : Store) (fs : FS) : List GoStr :=
  (fs.files.filter (fun e =>
    goHasPre e.1 (s.dir ++ ['/']) && !goHasPre e.1 s.keyDir)).map (fun e => e.1)

/-- reencryptFile (src/rotation.go): lock, read; delete an unreadable or
empty file; leave a file already under the current index untouched;
delete a file that fails to decrypt; on encryption failure leave the file
under its old key; otherwise write the re-encrypted bytes back (a failed
write leaves the file unchanged).  It never returns an error. -/
def reencryptFile (s : Store) (fs : FS) (nonce : Bytes) (path : GoStr) : FS :=
  if fs.isDir path then fs
  else
    match fs.lookupFile path with
    | none => fs.removeFile path
    | some encryptedData =>
      if encryptedData.length < 1 then fs.removeFile path
      else if encryptedData.headD 0 = s.currentKeyIndex then fs
      else
        match decryptData s fs encryptedData with
        | .error _ => fs.removeFile path
        | .ok dataGo =>
          match encryptData s nonce (dataGo.getD []) with
          | .error _ => fs
          | .ok newEncryptedData =>
            match fs.writeFile path newEncryptedData with
            | .error _ => fs
            | .ok fs1 => fs1

/-- filepath.Glob(keyDir/keystar): regular files directly inside the
keys directory whose name starts with key. -/
def globKeyStar (s : Store) (fs : FS) : List GoStr :=
  (fs.files.filter (fun e =>
    goHasPre e.1 (s.keyDir ++ str "/key") &&
      !(e.1.drop (s.keyDir.length + 4)).contains '/')).map (fun e => e.1)

/-- updateFiles (src/rotation.go), with an explicit fuel argument that
bounds the call depth: `none` means the fuel ran out before the function
returned.  `rng` supplies the fresh nonce used to re-encrypt each file.
The body re-encrypts every data file, re-lists to detect stragglers and
recurses with `calls + 1` if any remain, re-checks the current index
under the store lock (recursing likewise on a mismatch), and finally
deletes every key file other than the current one. -/
def updateFilesF : Nat → Store → FS → (GoStr → Bytes) → Nat → Option FS
  | 0, _, _, _, _ => none
  | fuel + 1, s, fs, rng, calls =>
    if calls > 10 then some fs
    else
      let files := listDataFiles s fs
      let fs1 := files.foldl (fun acc f => reencryptFile s acc (rng f) f) fs
      let newKeyIndex := s.currentKeyIndex
      let files2 := listDataFiles s fs1
      if files2.any (fun f =>
          match getKeyIndex s fs1 f with
          | .error _ => true
          | .ok i => i ≠ newKeyIndex) then
        updateFilesF fuel s fs1 rng (calls + 1)
      else if s.currentKeyIndex ≠ newKeyIndex then
        updateFilesF fuel s fs1 rng (calls + 1)
      else
        let curKeyPath := goJoin s.keyDir (keyFileName newKeyIndex)
        some ((globKeyStar s fs1).foldl
          (fun acc k => if k = curKeyPath then acc else acc.removeFile k) fs1)

/-- A store state with the standard file-name layout, used to instantiate
the universally quantified theorems on concrete inputs. -/
def exampleStore : Store :=
  { dir := str "/tmp/store"
    keyDir := str "/tmp/store/.secretskeys"
    saltFile := str "/tmp/store/.secretskeys/primarysalt"
    curKeyIdxFile := str "/tmp/store/.secretskeys/currentkey"
    lockFile := str "/tmp/store/.secretskeys/.keylock"
    primaryKey := List.replicate 32 7
    currentKey := List.replicate 32 1
    currentKeyIndex := 0 }

/-- A freshly created store tree without data files. -/
def emptyFS : FS :=
  { files := [], dirs := [str "/tmp/store", str "/tmp/store/.secretskeys"] }

/-- Opening the sealed ciphertext with the sealing key and nonce recovers
the plaintext. -/
theorem gcmOpen_gcmSeal (key nonce pt : Bytes) :
    gcmOpen key nonce (gcmSeal key nonce pt) = some pt := by
  unfold gcmOpen gcmSeal
  simp

/-- A path whose stat comes back empty is neither a directory nor a file. -/
theorem statEx_none (fs : FS) (p : GoStr) (h : (fs.statEx p).isSome = false) :
    fs.isDir p = false ∧ (fs.lookupFile p).isSome = false := by
  unfold FS.statEx at h
  by_cases hd : fs.isDir p
  · simp [hd] at h
  · by_cases hf : (fs.lookupFile p).isSome
    · simp [hd, hf] at h
    · exact ⟨by simpa using hd, by simpa using hf⟩

/-- A path whose stat reports a directory is in the directory set. -/
theorem statEx_some_true (fs : FS) (p : GoStr) (h : fs.statEx p = some true) :
    fs.isDir p = true := by
  unfold FS.statEx at h
  by_cases hd : fs.isDir p
  · exact hd
  · by_cases hf : (fs.lookupFile p).isSome <;> simp [hd, hf] at h

/-- Mapping a function over a path list preserves membership. -/
theorem memPath_map (f : GoStr → GoStr) :
    ∀ (l : List GoStr) (x : GoStr), memPath l x = true → memPath (l.map f) (f x) = true := by
  intro l
  induction l with
  | nil => intro x h; simp [memPath] at h
  | cons q rest ih =>
    intro x h
    rw [memPath] at h
    by_cases hq : q = x
    · subst hq
      simp [memPath]
    · rw [if_neg hq] at h
      rw [List.map_cons, memPath]
      by_cases hfq : f q = f x
      · rw [if_pos hfq]
      · rw [if_neg hfq]
        exact ih x h

/-- Claim C10: calling Save, Load, or Delete on a nil receiver returns
the no-store error without dereferencing the receiver: each method
checks the receiver for nil first (src/data.go). -/
theorem nil_store_rejected (fs : FS) (nonce : Bytes) (path : GoStr) (data : Bytes) :
    Save none fs nonce path data = .error "no store" ∧
    Load none fs path = .error "no store" ∧
    Delete none fs path = .error "no store" :=
  ⟨rfl, rfl, rfl⟩

/-- Claim C7: Delete on a validated path whose file does not exist on
disk returns success and leaves the filesystem unchanged (src/data.go:
a stat failure recognized by os.IsNotExist returns nil). -/
theorem delete_missing_success (s : Store) (fs : FS) (path : GoStr)
    (hpre : goHasPre (goClean (goJoin s.dir path)) s.dir = true)
    (hstat : fs.statEx (goClean (goJoin s.dir path)) = none) :
    Delete (some s) fs path = .ok fs := by
  unfold Delete
  simp only []
  rw [hpre, hstat]
  simp

/-- Witness for delete_missing_success at a concrete store and path. -/
theorem delete_missing_success_witness :
    goHasPre (goClean (goJoin exampleStore.dir (str "missing"))) exampleStore.dir = true ∧
    emptyFS.statEx (goClean (goJoin exampleStore.dir (str "missing"))) = none ∧
    Delete (some exampleStore) emptyFS (str "missing") = .ok emptyFS :=
  ⟨by decide, by decide, delete_missing_success exampleStore emptyFS (str "missing")
    (by decide) (by decide)⟩

/-- Claim C2 evaluation at the failing input: for root /tmp/store the
relative path ../storeX has a cleaned join /tmp/storeX that escapes the
root, Save and Load reject it, but Delete's prefix check (which omits
the trailing slash, src/data.go line 87) accepts it and Delete returns
success instead of a path-escape error. -/
theorem delete_path_escape_not_rejected :
    goHasPre (goClean (goJoin exampleStore.dir (str "../storeX")))
        (exampleStore.dir ++ ['/']) = false ∧
    Save (some exampleStore) emptyFS (List.replicate 12 0) (str "../storeX") [1] =
      .error "path outside store hierarchy" ∧
    Load (some exampleStore) emptyFS (str "../storeX") =
      .error "path outside store hierarchy" ∧
    Delete (some exampleStore) emptyFS (str "../storeX") = .ok emptyFS := by
  refine ⟨by decide, by decide, by decide, by decide⟩

/-- Claim C5 counterexample: a 16-byte salt, which the claim says must
succeed, is rejected by deriveKeyFromPassword (src/unnamed/part_010
requires at least 32 bytes). -/
theorem derive_salt16_rejected :
    16 ≤ (List.replicate 16 0 : Bytes).length ∧
    deriveKeyFromPassword [1, 2] (List.replicate 16 0) =
      .error "salt must be at least 32 bytes" := by
  refine ⟨by decide, by decide⟩

/-- Claim C5 (amended): deriveKeyFromPassword fails exactly when the
salt is shorter than 32 bytes; on a salt of at least 32 bytes it returns
a 32-byte Argon2id key with parameters time 3, memory 64 MiB,
parallelism 4, tag length 32. -/
theorem deriveKeyFromPassword_spec (password salt : Bytes) :
    (salt.length < 32 →
      deriveKeyFromPassword password salt = .error "salt must be at least 32 bytes") ∧
    (32 ≤ salt.length →
      deriveKeyFromPassword password salt =
        .ok (argon2IDKey password salt 3 (64 * 1024) 4 32) ∧
      (argon2IDKey password salt 3 (64 * 1024) 4 32).length = 32) := by
  constructor
  · intro h
    simp [deriveKeyFromPassword, h]
  · intro h
    constructor
    · simp [deriveKeyFromPassword, Nat.not_lt.2 h, Argon2Time, Argon2Memory,
        Argon2Threads, Argon2KeyLen]
    · simp [argon2IDKey]

/-- Witness for deriveKeyFromPassword_spec at a 32-byte salt. -/
theorem deriveKeyFromPassword_spec_witness :
    deriveKeyFromPassword [1, 2] (List.replicate 32 0) =
      .ok (argon2IDKey [1, 2] (List.replicate 32 0) 3 (64 * 1024) 4 32) ∧
    (argon2IDKey [1, 2] (List.replicate 32 0) 3 (64 * 1024) 4 32).length = 32 :=
  (deriveKeyFromPassword_spec [1, 2] (List.replicate 32 0)).2 (by decide)

/-- A key tree holding a one-byte key file with algorithm byte 5 at
index 7, and a well-formed envelope for index 1. -/
def keyFS : FS :=
  { files :=
      [(str "/tmp/store/.secretskeys/key7", [5]),
       (str "/tmp/store/.secretskeys/key1",
        0 :: List.replicate 12 3 ++
          gcmSeal (List.replicate 32 7) (List.replicate 12 3) (List.replicate 32 9))]
    dirs := [str "/tmp/store", str "/tmp/store/.secretskeys"] }

/-- Claim C6 counterexample: the key file key7 is a single byte, hence
shorter than the 13-byte minimum framing, yet loadKey reports the
unsupported-algorithm error, not the invalid-format error: src/store.go
checks the algorithm byte before the nonce-length framing check. -/
theorem loadKey_short_alg_counterexample :
    keyFS.readFile (goJoin exampleStore.keyDir (keyFileName 7)) = .ok [5] ∧
    ([5] : Bytes).length < 1 + gcmNonceSize ∧
    loadKey exampleStore keyFS 7 = .error "unsupported algorithm: 5" ∧
    ("unsupported algorithm: 5" : String) ≠ "invalid key file format" := by
  refine ⟨by decide, by decide, by decide, by decide⟩

/-- Claim C6 (amended): loadKey applies its checks in order: an empty
key file is an invalid-format error; a nonzero algorithm byte is the
unsupported-algorithm error even when the file is also shorter than
1 + 12 bytes; with algorithm byte 0 a file shorter than 1 + 12 bytes is
an invalid-format error; a GCM authentication failure under the primary
key is the decrypt error; otherwise loadKey returns the decrypted key. -/
theorem loadKey_spec (s : Store) (fs : FS) (index : Nat) (data : Bytes)
    (hpk : s.primaryKey.length = 32)
    (hread : fs.readFile (goJoin s.keyDir (keyFileName index)) = .ok data) :
    (data.length < 1 → loadKey s fs index = .error "invalid key file format") ∧
    (1 ≤ data.length → data.headD 0 ≠ 0 →
      loadKey s fs index = .error ("unsupported algorithm: " ++ toString (data.headD 0))) ∧
    (data.headD 0 = 0 → 1 ≤ data.length → data.length < 1 + gcmNonceSize →
      loadKey s fs index = .error "invalid key file format") ∧
    (data.headD 0 = 0 → 1 + gcmNonceSize ≤ data.length →
      gcmOpen s.primaryKey ((data.drop 1).take gcmNonceSize)
          (data.drop (1 + gcmNonceSize)) = none →
      loadKey s fs index = .error "failed to decrypt key") ∧
    (∀ k, data.headD 0 = 0 → 1 + gcmNonceSize ≤ data.length →
      gcmOpen s.primaryKey ((data.drop 1).take gcmNonceSize)
          (data.drop (1 + gcmNonceSize)) = some k →
      loadKey s fs index = .ok k) := by
  have htake : s.primaryKey.take 32 = s.primaryKey :=
    List.take_of_length_le (by omega)
  have hkeyok : aesKeyLenOk (s.primaryKey.take 32) = true := by
    rw [htake]
    unfold aesKeyLenOk
    simp [hpk]
  unfold loadKey
  simp only []
  rw [hread]
  dsimp only
  refine ⟨?_, ?_, ?_, ?_, ?_⟩
  · intro h
    rw [if_pos h]
  · intro h1 halg
    rw [if_neg (show ¬ data.length < 1 by omega), if_pos halg]
  · intro halg h1 hshort
    rw [if_neg (show ¬ data.length < 1 by omega),
      if_neg (show ¬ data.headD 0 ≠ 0 by rw [halg]; decide),
      if_neg (show ¬ aesKeyLenOk (s.primaryKey.take 32) = false by simp [hkeyok]),
      if_pos hshort]
  · intro halg hlong hopen
    rw [if_neg (show ¬ data.length < 1 by omega),
      if_neg (show ¬ data.headD 0 ≠ 0 by rw [halg]; decide),
      if_neg (show ¬ aesKeyLenOk (s.primaryKey.take 32) = false by simp [hkeyok]),
      if_neg (show ¬ data.length < 1 + gcmNonceSize by omega), htake, hopen]
  · intro k halg hlong hopen
    rw [if_neg (show ¬ data.length < 1 by omega),
      if_neg (show ¬ data.headD 0 ≠ 0 by rw [halg]; decide),
      if_neg (show ¬ aesKeyLenOk (s.primaryKey.take 32) = false by simp [hkeyok]),
      if_neg (show ¬ data.length < 1 + gcmNonceSize by omega), htake, hopen]

/-- Witness for loadKey_spec: the well-formed envelope at index 1 opens
to the 32-byte key it seals. -/
theorem loadKey_spec_witness :
    loadKey exampleStore keyFS 1 = .ok (List.replicate 32 9) :=
  (loadKey_spec exampleStore keyFS 1
      (0 :: List.replicate 12 3 ++
        gcmSeal (List.replicate 32 7) (List.replicate 12 3) (List.replicate 32 9))
      (by decide) (by decide)).2.2.2.2 (List.replicate 32 9)
    (by decide) (by decide) (by decide)

/-- Decrypting a frame produced by encryptData under the same store
state recovers the plaintext as a non-nil slice. -/
theorem decryptData_of_encryptData (s : Store) (fs : FS) (nonce data : Bytes)
    (hkey : aesKeyLenOk s.currentKey = true) (hnonce : nonce.length = 12) :
    decryptData s fs (s.currentKeyIndex :: nonce ++ gcmSeal s.currentKey nonce data) =
      .ok (some data) := by
  have hns : gcmNonceSize = nonce.length := by unfold gcmNonceSize; rw [hnonce]
  have hlen : (s.currentKeyIndex :: nonce ++ gcmSeal s.currentKey nonce data).length
      = 14 + data.length := by
    simp [gcmSeal, hnonce]
    omega
  unfold decryptData
  simp only []
  simp only [hlen]
  rw [if_neg (show ¬ 14 + data.length < 1 by omega)]
  have hhd : (s.currentKeyIndex :: nonce ++ gcmSeal s.currentKey nonce data).headD 0
      = s.currentKeyIndex := rfl
  rw [hhd, if_pos rfl]
  dsimp only
  rw [hkey, if_neg (show ¬ (true = false) by decide),
    if_neg (show ¬ 14 + data.length < 1 + gcmNonceSize by unfold gcmNonceSize; omega)]
  have ht : List.take gcmNonceSize
      (List.drop 1 (s.currentKeyIndex :: nonce ++ gcmSeal s.currentKey nonce data)) = nonce := by
    rw [show List.drop 1 (s.currentKeyIndex :: nonce ++ gcmSeal s.currentKey nonce data)
        = nonce ++ gcmSeal s.currentKey nonce data from rfl, hns, List.take_left]
  have hd : List.drop (1 + gcmNonceSize)
      (s.currentKeyIndex :: nonce ++ gcmSeal s.currentKey nonce data)
      = gcmSeal s.currentKey nonce data := by
    rw [show List.drop (1 + gcmNonceSize)
          (s.currentKeyIndex :: nonce ++ gcmSeal s.currentKey nonce data)
        = List.drop gcmNonceSize (nonce ++ gcmSeal s.currentKey nonce data) from rfl, hns,
      List.drop_left]
  rw [ht, hd, gcmOpen_gcmSeal]
  dsimp only
  cases data with
  | nil => simp
  | cons x xs => simp

/-- Save on a valid path writes the encrypted frame at the cleaned join
of the root and the path, after creating the parent directory. -/
theorem save_writes (s : Store) (fs : FS) (nonce : Bytes) (path : GoStr) (data : Bytes)
    (hp : ¬ path = [])
    (hpre : goHasPre (goJoin s.dir path) (s.dir ++ ['/']) = true)
    (hparent : fs.lookupFile (goDir (goJoin s.dir path)) = none)
    (hnd : fs.isDir (goJoin s.dir path) = false)
    (hfd : ¬ goDir (goJoin s.dir path) = goJoin s.dir path)
    (hkey : aesKeyLenOk s.currentKey = true) :
    Save (some s) fs nonce path data = .ok
      { files := (goJoin s.dir path,
          s.currentKeyIndex :: nonce ++ gcmSeal s.currentKey nonce data) ::
          fs.files.filter (fun e => if e.1 = goJoin s.dir path then false else true),
        dirs := goDir (goJoin s.dir path) :: fs.dirs } := by
  have his1 : FS.isDir { fs with dirs := goDir (goJoin s.dir path) :: fs.dirs }
      (goJoin s.dir path) = false := by
    unfold FS.isDir memPath
    rw [if_neg hfd]
    exact hnd
  have hmk : fs.mkdirAll (goDir (goJoin s.dir path)) =
      .ok { fs with dirs := goDir (goJoin s.dir path) :: fs.dirs } := by
    unfold FS.mkdirAll
    simp [hparent]
  have henc : encryptData s nonce data =
      .ok (s.currentKeyIndex :: nonce ++ gcmSeal s.currentKey nonce data) := by
    unfold encryptData
    simp [hkey]
  have hwf : FS.writeFile { fs with dirs := goDir (goJoin s.dir path) :: fs.dirs }
      (goJoin s.dir path)
      (s.currentKeyIndex :: nonce ++ gcmSeal s.currentKey nonce data) =
      .ok { files := (goJoin s.dir path,
              s.currentKeyIndex :: nonce ++ gcmSeal s.currentKey nonce data) ::
              fs.files.filter (fun e => if e.1 = goJoin s.dir path then false else true),
            dirs := goDir (goJoin s.dir path) :: fs.dirs } := by
    unfold FS.writeFile
    simp [his1]
  unfold Save
  simp only []
  rw [if_neg hp,
    if_neg (show ¬ (goHasPre (goJoin s.dir path) (s.dir ++ ['/']) = false) by rw [hpre]; decide),
    hmk]
  dsimp only
  rcases hstat : FS.statEx { fs with dirs := goDir (goJoin s.dir path) :: fs.dirs }
      (goJoin s.dir path) with _ | b
  · rw [henc]
    dsimp only
    rw [hwf]
  · cases b with
    | false =>
      rw [henc]
      dsimp only
      rw [hwf]
    | true =>
      unfold FS.statEx at hstat
      rw [his1] at hstat
      simp at hstat

/-- Load on a valid path whose file holds `enc` returns whatever
decryptData yields on `enc`. -/
theorem load_reads (s : Store) (fs' : FS) (path : GoStr) (enc : Bytes) (v : GoBytes)
    (hp : ¬ path = [])
    (hpre : goHasPre (goJoin s.dir path) (s.dir ++ ['/']) = true)
    (hdir : fs'.isDir (goJoin s.dir path) = false)
    (hfind : fs'.lookupFile (goJoin s.dir path) = some enc)
    (hdec : decryptData s fs' enc = .ok v) :
    Load (some s) fs' path = .ok v := by
  have hrf : fs'.readFile (goJoin s.dir path) = .ok enc := by
    unfold FS.readFile
    simp [hdir, hfind]
  unfold Load
  simp only []
  rw [if_neg hp,
    if_neg (show ¬ (goHasPre (goJoin s.dir path) (s.dir ++ ['/']) = false) by rw [hpre]; decide),
    hrf]
  dsimp only
  rw [hdec]

/-- Claim C1: for every store and every path valid under the root (non
empty, cleaned join strictly under the root, not colliding with a
directory, and whose parent is not occupied by a file), Load after Save
returns exactly the saved bytes, and the returned slice is never nil,
so an empty plaintext comes back as an empty non-nil byte sequence
(src/data.go Save, Load, decryptData). -/
theorem save_load_roundtrip (s : Store) (fs : FS) (nonce : Bytes) (path : GoStr) (data : Bytes)
    (hp : ¬ path = [])
    (hpre : goHasPre (goJoin s.dir path) (s.dir ++ ['/']) = true)
    (hparent : fs.lookupFile (goDir (goJoin s.dir path)) = none)
    (hnd : fs.isDir (goJoin s.dir path) = false)
    (hfd : ¬ goDir (goJoin s.dir path) = goJoin s.dir path)
    (hkey : aesKeyLenOk s.currentKey = true)
    (hnonce : nonce.length = 12) :
    ∃ fs', Save (some s) fs nonce path data = .ok fs' ∧
      Load (some s) fs' path = .ok (some data) ∧ Load (some s) fs' path ≠ .ok none := by
  have hload : Load (some s)
      { files := (goJoin s.dir path,
          s.currentKeyIndex :: nonce ++ gcmSeal s.currentKey nonce data) ::
          fs.files.filter (fun e => if e.1 = goJoin s.dir path then false else true),
        dirs := goDir (goJoin s.dir path) :: fs.dirs } path = .ok (some data) := by
    apply load_reads s _ path (s.currentKeyIndex :: nonce ++ gcmSeal s.currentKey nonce data)
      (some data) hp hpre
    · unfold FS.isDir memPath
      rw [if_neg hfd]
      exact hnd
    · unfold FS.lookupFile findFile
      rw [if_pos rfl]
    · exact decryptData_of_encryptData s _ nonce data hkey hnonce
  exact ⟨_, save_writes s fs nonce path data hp hpre hparent hnd hfd hkey, hload,
    by rw [hload]; simp⟩

/-- Witness for save_load_roundtrip with an empty plaintext: the load
returns the empty, non-nil slice. -/
theorem save_load_roundtrip_witness :
    ∃ fs', Save (some exampleStore) emptyFS (List.replicate 12 0) (str "api/key") [] = .ok fs' ∧
      Load (some exampleStore) fs' (str "api/key") = .ok (some []) ∧
      Load (some exampleStore) fs' (str "api/key") ≠ .ok none :=
  save_load_roundtrip exampleStore emptyFS (List.replicate 12 0) (str "api/key") []
    (by decide) (by decide) (by decide) (by decide) (by decide) (by decide) (by decide)

/-- Claim C3: Rotate with current index c refuses with the
keyspace-full error and changes nothing when the key file for
(c + 1) mod 256 already exists; otherwise it writes the new encrypted
key file for the next index, sets the in-memory current key and index,
and persists the single index byte to the currentkey file
(src/rotation.go Rotate, src/store.go newKey, saveCurrentKeyIndex). -/
theorem rotate_spec (s : Store) (fs : FS) (rngKey rngNonce : Bytes)
    (hpk : s.primaryKey.length = 32)
    (hck : fs.isDir s.curKeyIdxFile = false)
    (hne : ¬ s.curKeyIdxFile = goJoin s.keyDir (keyFileName ((s.currentKeyIndex + 1) % 256))) :
    ((fs.statEx (goJoin s.keyDir (keyFileName ((s.currentKeyIndex + 1) % 256)))).isSome = true →
      Rotate s fs rngKey rngNonce = (.error "too many existing keys", s, fs)) ∧
    ((fs.statEx (goJoin s.keyDir (keyFileName ((s.currentKeyIndex + 1) % 256)))).isSome = false →
      ∃ fs2, Rotate s fs rngKey rngNonce =
          (.ok (), { s with currentKey := rngKey,
                            currentKeyIndex := (s.currentKeyIndex + 1) % 256 }, fs2) ∧
        fs2.lookupFile s.curKeyIdxFile = some [(s.currentKeyIndex + 1) % 256] ∧
        fs2.lookupFile (goJoin s.keyDir (keyFileName ((s.currentKeyIndex + 1) % 256))) =
          some (0 :: rngNonce ++ gcmSeal s.primaryKey rngNonce rngKey)) := by
  constructor
  · intro h
    unfold Rotate
    simp only []
    rw [if_pos h]
  · intro h
    obtain ⟨hdirF, hlookF⟩ := statEx_none fs _ h
    have htake : s.primaryKey.take 32 = s.primaryKey := List.take_of_length_le (by omega)
    have hkeyok : aesKeyLenOk (s.primaryKey.take 32) = true := by
      rw [htake]
      unfold aesKeyLenOk
      simp [hpk]
    have hnkf : newKeyFn s fs ((s.currentKeyIndex + 1) % 256) rngKey rngNonce =
        .ok (rngKey,
          { fs with files := (goJoin s.keyDir (keyFileName ((s.currentKeyIndex + 1) % 256)),
              0 :: rngNonce ++ gcmSeal s.primaryKey rngNonce rngKey) ::
              fs.files.filter (fun e =>
                if e.1 = goJoin s.keyDir (keyFileName ((s.currentKeyIndex + 1) % 256))
                then false else true) }) := by
      unfold newKeyFn
      rw [hkeyok, if_neg (show ¬ (true = false) by decide)]
      unfold FS.writeFile
      rw [htake]
      simp [hdirF]
    have hw2 : FS.writeFile
        { fs with files := (goJoin s.keyDir (keyFileName ((s.currentKeyIndex + 1) % 256)),
            0 :: rngNonce ++ gcmSeal s.primaryKey rngNonce rngKey) ::
            fs.files.filter (fun e =>
              if e.1 = goJoin s.keyDir (keyFileName ((s.currentKeyIndex + 1) % 256))
              then false else true) }
        s.curKeyIdxFile [(s.currentKeyIndex + 1) % 256] =
        .ok { files := (s.curKeyIdxFile, [(s.currentKeyIndex + 1) % 256]) ::
                ((goJoin s.keyDir (keyFileName ((s.currentKeyIndex + 1) % 256)),
                  0 :: rngNonce ++ gcmSeal s.primaryKey rngNonce rngKey) ::
                  fs.files.filter (fun e =>
                    if e.1 = goJoin s.keyDir (keyFileName ((s.currentKeyIndex + 1) % 256))
                    then false else true)).filter (fun e =>
                      if e.1 = s.curKeyIdxFile then false else true),
              dirs := fs.dirs } := by
      have hck' : memPath fs.dirs s.curKeyIdxFile = false := hck
      unfold FS.writeFile FS.isDir
      dsimp only
      simp [hck']
    refine ⟨{ files := (s.curKeyIdxFile, [(s.currentKeyIndex + 1) % 256]) ::
                ((goJoin s.keyDir (keyFileName ((s.currentKeyIndex + 1) % 256)),
                  0 :: rngNonce ++ gcmSeal s.primaryKey rngNonce rngKey) ::
                  fs.files.filter (fun e =>
                    if e.1 = goJoin s.keyDir (keyFileName ((s.currentKeyIndex + 1) % 256))
                    then false else true)).filter (fun e =>
                      if e.1 = s.curKeyIdxFile then false else true),
              dirs := fs.dirs }, ?_, ?_, ?_⟩
    · unfold Rotate
      simp only []
      rw [if_neg (show ¬ ((fs.statEx (goJoin s.keyDir
          (keyFileName ((s.currentKeyIndex + 1) % 256)))).isSome = true) by rw [h]; decide),
        hnkf]
      dsimp only
      unfold saveCurrentKeyIndex
      dsimp only
      rw [hw2]
    · unfold FS.lookupFile findFile
      rw [if_pos rfl]
    · unfold FS.lookupFile findFile
      rw [if_neg hne, List.filter_cons]
      rw [if_neg (show ¬ (goJoin s.keyDir (keyFileName ((s.currentKeyIndex + 1) % 256))
          = s.curKeyIdxFile) from fun hh => hne hh.symm)]
      simp only [if_true]
      unfold findFile
      rw [if_pos rfl]


/-- Witness for rotate_spec on a fresh store: rotation to index 1
succeeds and persists the index byte and the new key file. -/
theorem rotate_spec_witness :
    ∃ fs2, Rotate exampleStore emptyFS (List.replicate 32 9) (List.replicate 12 3) =
        (.ok (),
         { exampleStore with
            currentKey := List.replicate 32 9
            currentKeyIndex := 1 },
         fs2) ∧
      fs2.lookupFile exampleStore.curKeyIdxFile = some [1] ∧
      fs2.lookupFile (goJoin exampleStore.keyDir (keyFileName 1)) =
        some (0 :: List.replicate 12 3 ++
          gcmSeal exampleStore.primaryKey (List.replicate 12 3) (List.replicate 32 9)) :=
  (rotate_spec exampleStore emptyFS (List.replicate 32 9) (List.replicate 12 3)
    (by decide) (by decide) (by decide)).2 (by decide)

/-- Claim C4: on open, when the keys directory is absent but the
.oldpw sibling left by an interrupted password change is present,
checkNewStore renames the sibling back into place as the keys directory
and reports an existing store (isNewStore = false), so the open proceeds
as an attach under the old password (src/unnamed/part_011). -/
theorem checkNewStore_oldpw_recovery (s : Store) (fs : FS)
    (h1 : fs.statEx s.dir = some true)
    (h2 : fs.statEx s.keyDir = none)
    (h3 : fs.statEx (goJoin s.dir oldPwDirName) = some true) :
    checkNewStore s fs = .ok (false,
      { files := fs.files.map (fun e =>
          (pathRen (goJoin s.dir oldPwDirName) s.keyDir e.1, e.2)),
        dirs := fs.dirs.map (pathRen (goJoin s.dir oldPwDirName) s.keyDir) }) ∧
    FS.isDir
      { files := fs.files.map (fun e =>
          (pathRen (goJoin s.dir oldPwDirName) s.keyDir e.1, e.2)),
        dirs := fs.dirs.map (pathRen (goJoin s.dir oldPwDirName) s.keyDir) }
      s.keyDir = true := by
  have hod : fs.isDir (goJoin s.dir oldPwDirName) = true := statEx_some_true fs _ h3
  constructor
  · have hren : fs.rename (goJoin s.dir oldPwDirName) s.keyDir = .ok
        { files := fs.files.map (fun e =>
            (pathRen (goJoin s.dir oldPwDirName) s.keyDir e.1, e.2)),
          dirs := fs.dirs.map (pathRen (goJoin s.dir oldPwDirName) s.keyDir) } := by
      unfold FS.rename
      rw [hod]
      simp
    unfold checkNewStore
    rw [h1]
    dsimp only
    rw [h2]
    dsimp only
    rw [h3]
    dsimp only
    rw [if_neg (show ¬ (true = false) by decide), hren]
  · unfold FS.isDir
    dsimp only
    have hmem : memPath fs.dirs (goJoin s.dir oldPwDirName) = true := hod
    have := memPath_map (pathRen (goJoin s.dir oldPwDirName) s.keyDir) fs.dirs
      (goJoin s.dir oldPwDirName) hmem
    rwa [show pathRen (goJoin s.dir oldPwDirName) s.keyDir (goJoin s.dir oldPwDirName)
        = s.keyDir by unfold pathRen; rw [if_pos rfl]] at this


/-- A store tree interrupted between the two renames of Passwd: the
keys directory is gone and only the .oldpw sibling remains. -/
def oldpwFS : FS :=
  { files := [(str "/tmp/store/.secretskeys.oldpw/primarysalt", [1, 2])]
    dirs := [str "/tmp/store", str "/tmp/store/.secretskeys.oldpw"] }

/-- Witness for checkNewStore_oldpw_recovery on a concrete interrupted
store. -/
theorem checkNewStore_oldpw_recovery_witness :
    checkNewStore exampleStore oldpwFS = .ok (false,
      { files := oldpwFS.files.map (fun e =>
          (pathRen (goJoin exampleStore.dir oldPwDirName) exampleStore.keyDir e.1, e.2)),
        dirs := oldpwFS.dirs.map
          (pathRen (goJoin exampleStore.dir oldPwDirName) exampleStore.keyDir) }) ∧
    FS.isDir
      { files := oldpwFS.files.map (fun e =>
          (pathRen (goJoin exampleStore.dir oldPwDirName) exampleStore.keyDir e.1, e.2)),
        dirs := oldpwFS.dirs.map
          (pathRen (goJoin exampleStore.dir oldPwDirName) exampleStore.keyDir) }
      exampleStore.keyDir = true :=
  checkNewStore_oldpw_recovery exampleStore oldpwFS (by decide) (by decide) (by decide)

/-- Claim C9: during the sweep, reencryptFile leaves a data file whose
first byte already matches the current key index byte-for-byte
unchanged; it removes a file that fails to decrypt and propagates no
error (the function has no error result); and it leaves a file unchanged
under its old key when encryption under the new key fails
(src/rotation.go reencryptFile). -/
theorem reencryptFile_spec (s : Store) (fs : FS) (nonce : Bytes) (path : GoStr) (enc : Bytes)
    (hdir : fs.isDir path = false)
    (hfile : fs.lookupFile path = some enc)
    (hlen : 1 ≤ enc.length) :
    (enc.headD 0 = s.currentKeyIndex → reencryptFile s fs nonce path = fs) ∧
    (¬ enc.headD 0 = s.currentKeyIndex → ∀ e, decryptData s fs enc = .error e →
      reencryptFile s fs nonce path = fs.removeFile path) ∧
    (¬ enc.headD 0 = s.currentKeyIndex → ∀ d, decryptData s fs enc = .ok d →
      aesKeyLenOk s.currentKey = false → reencryptFile s fs nonce path = fs) := by
  unfold reencryptFile
  rw [hdir, if_neg (show ¬ (false = true) by decide), hfile]
  dsimp only
  rw [if_neg (show ¬ enc.length < 1 by omega)]
  refine ⟨?_, ?_, ?_⟩
  · intro h
    rw [if_pos h]
  · intro h e hdec
    rw [if_neg h, hdec]
  · intro h d hdec hae
    rw [if_neg h, hdec]
    dsimp only
    have hencErr : encryptData s nonce (d.getD []) = .error "failed to create cipher" := by
      unfold encryptData
      rw [hae]
      simp
    rw [hencErr]


/-- A store tree holding one data file already under the current key
index. -/
def dataFS : FS :=
  { files := [(str "/tmp/store/f", [0, 9])], dirs := [str "/tmp/store"] }

/-- Witness for reencryptFile_spec: a file already under the current
index is untouched. -/
theorem reencryptFile_spec_witness :
    reencryptFile exampleStore dataFS (List.replicate 12 0) (str "/tmp/store/f") = dataFS :=
  (reencryptFile_spec exampleStore dataFS (List.replicate 12 0) (str "/tmp/store/f") [0, 9]
    (by decide) (by decide) (by decide)).1 (by decide)

/-- The sweep's recursion is bounded: fuel covering the remaining
passes (the counter may grow to 11 before the guard stops it) always
suffices for updateFilesF to return. -/
theorem updateFilesF_isSome (s : Store) (rng : GoStr → Bytes) :
    ∀ (fuel : Nat) (fs : FS) (calls : Nat), 11 - calls + 1 ≤ fuel →
      (updateFilesF fuel s fs rng calls).isSome = true := by
  intro fuel
  induction fuel with
  | zero =>
    intro fs calls h
    omega
  | succ f ih =>
    intro fs calls h
    rw [updateFilesF]
    by_cases hc : calls > 10
    · rw [if_pos hc]
      rfl
    · rw [if_neg hc]
      dsimp only
      split
      · exact ih _ _ (by omega)
      · split
        · exact ih _ _ (by omega)
        · rfl

/-- Claim C8: the background sweep terminates on every input: the pass
counter strictly increases on each recursive call (updateFilesF recurses
only with calls + 1), the function returns immediately once the counter
exceeds 10 passes, and the abandon is not an error: the sweep's only
result is a normally returned filesystem state (src/rotation.go
updateFiles). -/
theorem updateFiles_terminates (s : Store) (fs : FS) (rng : GoStr → Bytes) (calls : Nat) :
    (updateFilesF (11 - calls + 1) s fs rng calls).isSome = true ∧
    (10 < calls → updateFilesF (11 - calls + 1) s fs rng calls = some fs) := by
  constructor
  · exact updateFilesF_isSome s rng (11 - calls + 1) fs calls (le_refl _)
  · intro h
    rw [updateFilesF, if_pos h]


/-- Witness for updateFiles_terminates: at pass counter 11 the sweep
returns its input state untouched, with no error. -/
theorem updateFiles_terminates_witness :
    (updateFilesF (11 - 11 + 1) exampleStore emptyFS (fun _ => List.replicate 12 0) 11).isSome
      = true ∧
    updateFilesF (11 - 11 + 1) exampleStore emptyFS (fun _ => List.replicate 12 0) 11 =
      some emptyFS :=
  ⟨(updateFiles_terminates exampleStore emptyFS (fun _ => List.replicate 12 0) 11).1,
   (updateFiles_terminates exampleStore emptyFS (fun _ => List.replicate 12 0) 11).2
     (by decide)⟩

end SecretsStore
